import Mathlib

/-!
Verification of the devp2p ECIES/MAC layer against its design document.

Shallow embedding of the Rust sources:
  * `src/src/mac.rs`        — the running MAC (`MAC::new`, `update`, `digest`;
                              `update_header` exists only as a commented-out stub);
  * `src/src/errors.rs`     — the `ECIESEerror` enum and its `From` conversions;
  * `src/src/ecies/algorithm.rs` — `PROTOCOL_VERSION`, `kdf`, and the `ECIES`
                              session struct with its derived `Debug` formatting.

Bytes are modelled as `Nat` (each intended `< 256`); byte buffers as `List Nat`.
The external hash primitives (SHA-256 in `kdf`, Keccak-256 in `MAC`) are external
collaborators of the design, so they are taken as function parameters
`hash / keccak : List Nat → List Nat`; an incremental hasher state is modelled by
the byte stream absorbed so far, which determines the eventual digest.
A Rust panic (out-of-bounds slice index, mismatched `copy_from_slice` lengths)
is modelled by returning `none`.
-/

namespace Devp2p

/-- The 4 counter bytes `[(ctr >> 24) as u8, (ctr >> 16) as u8, (ctr >> 8) as u8, ctr as u8]`
built at the top of each iteration of `kdf` (`src/src/ecies/algorithm.rs`), i.e. the 32-bit
big-endian encoding of the counter. -/
def ctrBytes (ctr : Nat) : List Nat :=
  [ctr / 2 ^ 24 % 256, ctr / 2 ^ 16 % 256, ctr / 2 ^ 8 % 256, ctr % 256]

/-- The `while written < dest.len()` loop of `kdf` (`src/src/ecies/algorithm.rs:15-32`).
Each iteration hashes `ctrBytes ctr ++ secret ++ s1` and executes
`dest[written..(written + 32)].copy_from_slice(&d)`: the slice index panics when
`written + 32 > dest.len()` and `copy_from_slice` panics when `d.len() ≠ 32`; both
panics are modelled as `none`.  The writes are consecutive, so the buffer contents
are modelled by the accumulator `acc` of bytes written so far. -/
def kdfLoop (hash : List Nat → List Nat) (secret s1 : List Nat) (destLen : Nat)
    (ctr written : Nat) (acc : List Nat) : Option (List Nat) :=
  if _h : written < destLen then
    let d := hash (ctrBytes ctr ++ secret ++ s1)
    if written + 32 ≤ destLen ∧ d.length = 32 then
      kdfLoop hash secret s1 destLen (ctr + 1) (written + 32) (acc ++ d)
    else
      none
  else
    some acc
termination_by destLen - written
decreasing_by omega

/-- `fn kdf(secret: H256, s1: &[u8], dest: &mut [u8])` from
`src/src/ecies/algorithm.rs:14-33`, with the destination buffer replaced by its
length `destLen` (its initial contents are never read).  `some out` means the
loop terminated normally leaving `out` in `dest`; `none` models a panic. -/
def kdf (hash : List Nat → List Nat) (secret s1 : List Nat) (destLen : Nat) :
    Option (List Nat) :=
  kdfLoop hash secret s1 destLen 1 0 []

/-- `const PROTOCOL_VERSION: usize = 4;` from `src/src/ecies/algorithm.rs:7`. -/
def PROTOCOL_VERSION : Nat := 4

/-- `pub struct MAC` from `src/src/mac.rs`: a 32-byte secret (`H256`) and a
`Keccak256` hasher, the latter modelled by the byte stream absorbed so far. -/
structure MAC where
  secret : List Nat
  hasher : List Nat
deriving DecidableEq, Repr

/-- `MAC::new(secret)` (`src/src/mac.rs:16-21`): stores the secret and pairs it
with `Keccak256::new()`, a fresh hasher that has absorbed nothing. -/
def MAC.new (secret : List Nat) : MAC :=
  { secret := secret, hasher := [] }

/-- `MAC::update(&mut self, data)` (`src/src/mac.rs:23-25`): absorbs `data` into
the hasher (`self.hasher.update(data)`). -/
def MAC.update (m : MAC) (data : List Nat) : MAC :=
  { m with hasher := m.hasher ++ data }

/-- `MAC::digest(&self)` (`src/src/mac.rs:31-33`):
`H128::from_slice(&self.hasher.clone().finalize()[0..16])` — finalize a clone of
the hasher (`keccak` applied to the absorbed stream) and keep bytes `0..16`. -/
def MAC.digest (keccak : List Nat → List Nat) (m : MAC) : List Nat :=
  (keccak m.hasher).take 16

/-- State-passing form of `MAC::digest`: the method takes `&self` and finalizes a
*clone* of the hasher, so the session state it leaves behind is the input state. -/
def MAC.digestStep (keccak : List Nat → List Nat) (m : MAC) : List Nat × MAC :=
  (MAC.digest keccak m, m)

/-- The spec's `digest` description, stated from its words: "returns the low 16
bytes of the current accumulator". -/
def truncate16 (bs : List Nat) : List Nat :=
  bs.take 16

/-- Modelled from the spec: `MAC::update_header` is only a commented-out stub in
`src/src/mac.rs:27-29` (an `Ecb::<_, NoPadding>` cipher built from `Aes256`), so
the operation is modelled from the spec's words: "XOR the 16-byte block to
authenticate with the low 16 bytes of the current accumulator value encrypted
under the MAC key using the padding-block cipher in single-block (codebook) mode,
then re-absorb the result into the hash accumulator".  `aes key block` is the
single-block codebook encryption, a further external collaborator. -/
def MAC.update_header (aes : List Nat → List Nat → List Nat)
    (keccak : List Nat → List Nat) (m : MAC) (block : List Nat) : MAC :=
  let encrypted := aes m.secret ((keccak m.hasher).take 16)
  MAC.update m (List.zipWith Nat.xor block encrypted)

/-- `io::Error` payload (external), reduced to a code. -/
structure IoError where
  code : Nat
deriving DecidableEq, Repr

/-- `secp256k1::Error` payload (external), reduced to a code. -/
structure SecpError where
  code : Nat
deriving DecidableEq, Repr

/-- `rlp::DecoderError` payload (external), reduced to a code. -/
structure RlpError where
  code : Nat
deriving DecidableEq, Repr

/-- The `anyhow::Error` values that `src/src/errors.rs` actually builds: the
`From` impls wrap a `secp256k1::Error` or an `rlp::DecoderError` via `.into()`. -/
inductive AnyhowError where
  | secp : SecpError → AnyhowError
  | rlp : RlpError → AnyhowError
deriving DecidableEq, Repr

/-- `pub enum ECIESEerror` from `src/src/errors.rs:4-20`, with exactly its five
variants: `IO(io::Error)`, `TagCheckFailed`, `InvalidAuthData`, `InvalidAckData`,
`Other(anyhow::Error)`.  (The `IO` variant is spelled `io` here.) -/
inductive ECIESEerror where
  | io : IoError → ECIESEerror
  | TagCheckFailed : ECIESEerror
  | InvalidAuthData : ECIESEerror
  | InvalidAckData : ECIESEerror
  | Other : AnyhowError → ECIESEerror
deriving DecidableEq, Repr

/-- `impl From<secp256k1::Error> for ECIESEerror` (`src/src/errors.rs:28-32`):
`Self::Other(value.into())`. -/
def fromSecpError (e : SecpError) : ECIESEerror :=
  ECIESEerror.Other (AnyhowError.secp e)

/-- `impl From<rlp::DecoderError> for ECIESEerror` (`src/src/errors.rs`):
`Self::Other(value.into())`. -/
def fromRlpError (e : RlpError) : ECIESEerror :=
  ECIESEerror.Other (AnyhowError.rlp e)

/-- `pub struct ECIES` from `src/src/ecies/algorithm.rs:35-55`, fields in
declaration order; key and nonce values reduced to `Nat`. -/
structure ECIES where
  secret_key : Nat
  public_key : Nat
  remote_public_key : Option Nat
  remote_id : Option Nat
  ephemeral_secret_key : Nat
  ephemeral_public_key : Nat
  ephemeral_shared_secret : Option Nat
  remote_ephemeral_public_key : Option Nat
  nonce : Nat
  remote_nonce : Option Nat
deriving DecidableEq, Repr

/-- Debug rendering of an `Option` field, Rust style. -/
def fmtOpt (o : Option Nat) : String :=
  match o with
  | some v => "Some(" ++ toString v ++ ")"
  | none => "None"

/-- The `Debug` impl derived by `#[derive(Educe)] #[educe(Debug)]` on `ECIES`
(`src/src/ecies/algorithm.rs:35-55`): it prints the struct fields in declaration
order, skipping the two fields marked `#[educe(Debug(ignore))]` —
`secret_key` and `ephemeral_secret_key`. -/
def ECIES.debugFmt (e : ECIES) : String :=
  "ECIES \x7b public_key: " ++ toString e.public_key ++
  ", remote_public_key: " ++ fmtOpt e.remote_public_key ++
  ", remote_id: " ++ fmtOpt e.remote_id ++
  ", ephemeral_public_key: " ++ toString e.ephemeral_public_key ++
  ", ephemeral_shared_secret: " ++ fmtOpt e.ephemeral_shared_secret ++
  ", remote_ephemeral_public_key: " ++ fmtOpt e.remote_ephemeral_public_key ++
  ", nonce: " ++ toString e.nonce ++
  ", remote_nonce: " ++ fmtOpt e.remote_nonce ++ " \x7d"

end Devp2p

namespace Devp2p

/-- C8: The negotiated protocol version constant of the handshake implementation
equals 4. -/
theorem protocol_version_is_four : PROTOCOL_VERSION = 4 :=
  rfl

/-- C5: `MAC::update` is a streaming, append-only absorb: updating with `a` and
then with `b` leaves the MAC in exactly the same state as the single call
`update (a ++ b)`, hence every later observation (digest or further updates)
agrees. -/
theorem mac_update_append (m : MAC) (a b : List Nat) :
    MAC.update (MAC.update m a) b = MAC.update m (a ++ b) := by
  simp [MAC.update, List.append_assoc]

/-- Unfolding lemma for `kdfLoop` covering a destination that is a whole number
of 32-byte blocks past `written`: the loop succeeds and appends, for counters
`ctr, ctr+1, ..., ctr+k-1`, the digests of `ctrBytes c ++ secret ++ s1`. -/
theorem kdfLoop_blocks (hash : List Nat → List Nat) (secret s1 : List Nat)
    (hlen : ∀ x, (hash x).length = 32) :
    ∀ (k ctr written : Nat) (acc : List Nat),
      kdfLoop hash secret s1 (written + 32 * k) ctr written acc =
        some (acc ++
          ((List.range' ctr k).map (fun c => hash (ctrBytes c ++ secret ++ s1))).flatten) := by
  intro k
  induction k with
  | zero =>
    intro ctr written acc
    rw [kdfLoop]
    simp
  | succ k ih =>
    intro ctr written acc
    rw [kdfLoop]
    have hlt : written < written + 32 * (k + 1) := by omega
    have harith : written + 32 * (k + 1) = (written + 32) + 32 * k := by ring
    rw [dif_pos hlt, if_pos ⟨by omega, hlen _⟩, harith, ih (ctr + 1) (written + 32) _]
    simp [List.range'_succ, List.append_assoc]

/-- C1: For every shared secret, context byte string and output length `n` that
is a positive multiple of 32 (and any hash with 32-byte digests), `kdf` returns
normally and its output is the concatenation of
`hash(counter_bytes ++ secret ++ ctx)` for the counters `1, 2, ..., n / 32`,
`counter_bytes` being the 32-bit big-endian encoding of the counter; `kdf` is a
pure Lean function, so identical inputs always yield identical output. -/
theorem kdf_counter_mode (hash : List Nat → List Nat) (secret s1 : List Nat)
    (n : Nat) (_hpos : 0 < n) (hmul : n % 32 = 0)
    (hlen : ∀ x, (hash x).length = 32) :
    kdf hash secret s1 n =
      some (((List.range' 1 (n / 32)).map
        (fun c => hash (ctrBytes c ++ secret ++ s1))).flatten) := by
  have hn : 0 + 32 * (n / 32) = n := by omega
  calc kdf hash secret s1 n
      = kdfLoop hash secret s1 (0 + 32 * (n / 32)) 1 0 [] := by rw [kdf, hn]
    _ = some (((List.range' 1 (n / 32)).map
          (fun c => hash (ctrBytes c ++ secret ++ s1))).flatten) := by
        rw [kdfLoop_blocks hash secret s1 hlen (n / 32) 1 0 []]
        simp

/-- A stand-in 32-byte-output hash used only to instantiate theorems at
concrete inputs. -/
def constHash32 (_bs : List Nat) : List Nat :=
  List.replicate 32 0

/-- Witness for C1 at `n = 32`, `secret = [7] * 32`, `ctx = [9]`,
`hash = constHash32`. -/
theorem kdf_counter_mode_witness :
    0 < 32 ∧ 32 % 32 = 0 ∧ (∀ x, (constHash32 x).length = 32) ∧
    kdf constHash32 (List.replicate 32 7) [9] 32 =
      some (((List.range' 1 (32 / 32)).map
        (fun c => constHash32 (ctrBytes c ++ List.replicate 32 7 ++ [9]))).flatten) :=
  ⟨by decide, by decide, fun x => by simp [constHash32],
    kdf_counter_mode constHash32 (List.replicate 32 7) [9] 32 (by decide) (by decide)
      (fun x => by simp [constHash32])⟩

/-- Helper: whenever `written` is still strictly inside the destination but the
distance to the end is not a multiple of 32, the loop of `kdf` eventually
executes `dest[written..written + 32]` with `written + 32 > dest.len()` (or a
`copy_from_slice` length mismatch arrives first) — a panic, modelled `none`. -/
theorem kdfLoop_not_multiple (hash : List Nat → List Nat) (secret s1 : List Nat)
    (destLen : Nat) :
    ∀ (fuel ctr written : Nat) (acc : List Nat), destLen - written ≤ fuel →
      written < destLen → (destLen - written) % 32 ≠ 0 →
      kdfLoop hash secret s1 destLen ctr written acc = none := by
  intro fuel
  induction fuel with
  | zero =>
    intro ctr written acc hf hlt hm
    exact absurd hlt (by omega)
  | succ fuel ih =>
    intro ctr written acc hf hlt hm
    rw [kdfLoop, dif_pos hlt]
    by_cases hcond :
        written + 32 ≤ destLen ∧ (hash (ctrBytes ctr ++ secret ++ s1)).length = 32
    · rw [if_pos hcond]
      exact ih (ctr + 1) (written + 32) _ (by omega) (by omega) (by omega)
    · rw [if_neg hcond]

/-- C2 (amended): for every output length `n` that is NOT a multiple of 32
(and any hash, secret and context), `kdf` does not truncate the final block: the
final-block write `dest[written..written + 32]` goes out of bounds, so the call
panics — modelled as `kdf ... = none`. -/
theorem kdf_panics_on_non_multiple (hash : List Nat → List Nat)
    (secret s1 : List Nat) (n : Nat) (hm : n % 32 ≠ 0) :
    kdf hash secret s1 n = none := by
  have hpos : 0 < n := by omega
  exact kdfLoop_not_multiple hash secret s1 n n 1 0 [] (by omega) hpos (by simpa)

/-- Witness for C2's amended statement at `n = 16`. -/
theorem kdf_panics_on_non_multiple_witness :
    16 % 32 ≠ 0 ∧ kdf constHash32 [] [] 16 = none :=
  ⟨by decide, kdf_panics_on_non_multiple constHash32 [] [] 16 (by decide)⟩

/-- C2 counterexample: at output length 16 (not a multiple of 32) the claim says
`kdf` returns normally with exactly 16 bytes, truncating the final hash block;
on the code the very first block write `dest[0..32]` is out of bounds for a
16-byte destination, so `kdf` panics (`none`) instead of returning 16 bytes. -/
theorem kdf_truncation_counterexample :
    kdf constHash32 (List.replicate 32 0) [] 16 = none := by
  rw [kdf, kdfLoop, dif_pos (by norm_num : (0 : Nat) < 16)]
  rw [if_neg (by norm_num)]

/-- C3 counterexample: `MAC::new` does not mix the seed into the hash
accumulator — it stores the seed in `secret` and pairs it with a *fresh*
`Keccak256::new()` hasher.  For the two distinct 32-byte seeds
`[0] * 32` and `[1] ++ [0] * 31` and update data `[1, 2, 3]`, the accumulator
state (the absorbed byte stream, which alone determines every later digest) is
identical, so no update data can make the digests differ. -/
theorem mac_new_seed_counterexample :
    (List.replicate 32 0 : List Nat) ≠ 1 :: List.replicate 31 0 ∧
    (MAC.new (List.replicate 32 0)).hasher = [] ∧
    (MAC.new (1 :: List.replicate 31 0)).hasher = [] ∧
    (MAC.update (MAC.new (List.replicate 32 0)) [1, 2, 3]).hasher =
      (MAC.update (MAC.new (1 :: List.replicate 31 0)) [1, 2, 3]).hasher :=
  ⟨by decide, rfl, rfl, rfl⟩

/-- Helper: the accumulator after a sequence of plain updates is exactly the
concatenation of the absorbed byte strings, independent of the stored seed. -/
theorem mac_foldl_update_hasher (ds : List (List Nat)) :
    ∀ m : MAC, (ds.foldl MAC.update m).hasher = m.hasher ++ ds.flatten := by
  induction ds with
  | nil => intro m; simp
  | cons d ds ih =>
    intro m
    simp [List.foldl_cons, ih, MAC.update, List.append_assoc]

/-- C3 (amended): `MAC::new(seed)` stores the seed in the `secret` field but
initializes the hash accumulator fresh, without mixing in the seed; hence after
any fixed sequence of plain `update` calls the accumulator state — and
therefore `digest()`, for every digest function — is independent of the seed. -/
theorem mac_new_seed_independent (keccak : List Nat → List Nat)
    (s1 s2 : List Nat) (ds : List (List Nat)) :
    MAC.digest keccak (ds.foldl MAC.update (MAC.new s1)) =
      MAC.digest keccak (ds.foldl MAC.update (MAC.new s2)) := by
  simp [MAC.digest, mac_foldl_update_hasher, MAC.new]

/-- C4: for every MAC state, `digest()` equals the low (first) 16 bytes of the
32-byte finalization of the current accumulator, and is exactly 16 bytes long
whenever the hash finalization produces 32 bytes. -/
theorem mac_digest_low16 (keccak : List Nat → List Nat) (m : MAC)
    (hlen : ∀ x, (keccak x).length = 32) :
    MAC.digest keccak m = truncate16 (keccak m.hasher) ∧
    (MAC.digest keccak m).length = 16 := by
  refine ⟨rfl, ?_⟩
  simp [MAC.digest, hlen]

/-- Witness for C4 at `keccak = constHash32`, `m = MAC.new []`. -/
theorem mac_digest_low16_witness :
    (∀ x, (constHash32 x).length = 32) ∧
    (MAC.digest constHash32 (MAC.new []) =
        truncate16 (constHash32 (MAC.new ([] : List Nat)).hasher) ∧
      (MAC.digest constHash32 (MAC.new [])).length = 16) :=
  ⟨fun x => by simp [constHash32],
    mac_digest_low16 constHash32 (MAC.new []) (fun x => by simp [constHash32])⟩

/-- C6 (spec-modelled, the source method is a commented-out stub): for every
16-byte block and every MAC state, `update_header` XORs the block with the
single-block codebook encryption, under the MAC key, of the low 16 bytes of the
current accumulator value, and absorbs the 16-byte XOR result into the hash
accumulator, so the subsequent `digest()` is the truncated hash of the
accumulator extended by that chained block. -/
theorem mac_update_header_spec (aes : List Nat → List Nat → List Nat)
    (keccak : List Nat → List Nat) (m : MAC) (block : List Nat)
    (hb : block.length = 16)
    (ha : (aes m.secret (truncate16 (keccak m.hasher))).length = 16) :
    MAC.update_header aes keccak m block =
      MAC.update m (List.zipWith Nat.xor block
        (aes m.secret (truncate16 (keccak m.hasher)))) ∧
    (List.zipWith Nat.xor block (aes m.secret (truncate16 (keccak m.hasher)))).length = 16 ∧
    MAC.digest keccak (MAC.update_header aes keccak m block) =
      truncate16 (keccak (m.hasher ++ List.zipWith Nat.xor block
        (aes m.secret (truncate16 (keccak m.hasher))))) := by
  refine ⟨rfl, ?_, rfl⟩
  simp [hb, ha]

/-- A stand-in single-block cipher (identity on the block) used only to
instantiate theorems at concrete inputs. -/
def idAes (_key : List Nat) (block : List Nat) : List Nat :=
  block

/-- Witness for C6 at `aes = idAes`, `keccak = constHash32`, `m = MAC.new []`,
`block = [1] * 16`. -/
theorem mac_update_header_spec_witness :
    (List.replicate 16 (1 : Nat)).length = 16 ∧
    (idAes (MAC.new ([] : List Nat)).secret
      (truncate16 (constHash32 (MAC.new ([] : List Nat)).hasher))).length = 16 ∧
    MAC.update_header idAes constHash32 (MAC.new []) (List.replicate 16 1) =
      MAC.update (MAC.new []) (List.zipWith Nat.xor (List.replicate 16 1)
        (idAes (MAC.new ([] : List Nat)).secret
          (truncate16 (constHash32 (MAC.new ([] : List Nat)).hasher)))) :=
  ⟨by decide, by decide,
    (mac_update_header_spec idAes constHash32 (MAC.new []) (List.replicate 16 1)
      (by decide) (by decide)).1⟩

/-- C7 counterexample: the `ECIESEerror` enum has no `KeyAgreementError`
variant; at the concrete error code 0, the `From<secp256k1::Error>` conversion
produces the catch-all `Other` variant — the same variant that rlp decoding
failures land in — so an elliptic-curve failure is not reported as a distinct
`KeyAgreementError` variant and is not identifiable from the variant alone. -/
theorem secp_error_variant_counterexample :
    fromSecpError ⟨0⟩ = ECIESEerror.Other (AnyhowError.secp ⟨0⟩) ∧
    fromRlpError ⟨0⟩ = ECIESEerror.Other (AnyhowError.rlp ⟨0⟩) :=
  ⟨rfl, rfl⟩

/-- C7 (amended): every failure of an underlying elliptic-curve operation
(a `secp256k1` error) is reported to the caller as the catch-all `Other`
variant of `ECIESEerror`, wrapping the converted error; the enum defines no
`KeyAgreementError` variant. -/
theorem secp_error_maps_to_other (e : SecpError) :
    fromSecpError e = ECIESEerror.Other (AnyhowError.secp e) :=
  rfl

/-- C9: `MAC::digest` is observationally pure: in state-passing form it leaves
the secret and the hash accumulator unchanged, two consecutive digests return
the same tag, and an update after a digest behaves exactly as if the digest had
never been called. -/
theorem mac_digest_observationally_pure (keccak : List Nat → List Nat) (m : MAC)
    (data : List Nat) :
    (MAC.digestStep keccak m).2.secret = m.secret ∧
    (MAC.digestStep keccak m).2.hasher = m.hasher ∧
    (MAC.digestStep keccak ((MAC.digestStep keccak m).2)).1 =
      (MAC.digestStep keccak m).1 ∧
    MAC.update ((MAC.digestStep keccak m).2) data = MAC.update m data :=
  ⟨rfl, rfl, rfl, rfl⟩

/-- C10: the derived `Debug` formatting of an `ECIES` session is independent of
its secret key material: two sessions agreeing on every field except
`secret_key` and `ephemeral_secret_key` format identically (those two fields
are `Debug(ignore)`d and never appear in the output). -/
theorem ecies_debug_ignores_secrets (e1 e2 : ECIES)
    (h1 : e1.public_key = e2.public_key)
    (h2 : e1.remote_public_key = e2.remote_public_key)
    (h3 : e1.remote_id = e2.remote_id)
    (h4 : e1.ephemeral_public_key = e2.ephemeral_public_key)
    (h5 : e1.ephemeral_shared_secret = e2.ephemeral_shared_secret)
    (h6 : e1.remote_ephemeral_public_key = e2.remote_ephemeral_public_key)
    (h7 : e1.nonce = e2.nonce)
    (h8 : e1.remote_nonce = e2.remote_nonce) :
    e1.debugFmt = e2.debugFmt := by
  simp [ECIES.debugFmt, h1, h2, h3, h4, h5, h6, h7, h8]

/-- Witness for C10: two concrete sessions whose `secret_key` (0 vs 99) and
`ephemeral_secret_key` (1 vs 42) differ while every other field agrees have the
same `Debug` output. -/
theorem ecies_debug_ignores_secrets_witness :
    (ECIES.mk 0 5 none none 1 6 none none 7 none).debugFmt =
      (ECIES.mk 99 5 none none 42 6 none none 7 none).debugFmt :=
  ecies_debug_ignores_secrets _ _ rfl rfl rfl rfl rfl rfl rfl rfl

end Devp2p
